import Mathlib

/-!
Verification of the `vrp` repository's job-validation module
(`vrp-pragmatic/src/validation/jobs.rs`) and of its group constraint module
(specified in the design document; exercised by
`vrp-pragmatic/tests/unit/constraints/group_test.rs`).

The first part embeds the validation code shallowly: Rust iterator chains
become list operations, `Result` becomes `Except`, and the multi-dimensional
capacity arithmetic (whose implementation lives outside the provided sources)
is modelled from the specification.  The second part models the group
constraint module from the specification, since only its tests are in the
provided sources.
-/

set_option autoImplicit false

/-- Generic association-list lookup used to model both `HashMap` lookups and
the dynamically typed `dimens` tag bag. Returns the value of the first pair
whose key matches. -/
def lookupKey {κ α : Type} [DecidableEq κ] (k : κ) : List (κ × α) → Option α
  | [] => none
  | p :: rest => if p.1 = k then some p.2 else lookupKey k rest

/-- Removes every pair with the given key from an association list. -/
def removeKey {κ α : Type} [DecidableEq κ] (k : κ) : List (κ × α) → List (κ × α)
  | [] => []
  | p :: rest => if p.1 = k then removeKey k rest else p :: removeKey k rest

/-! ## Multi-dimensional capacity

Modelled from the spec: `MultiDimensionalCapacity` is "a fixed-length vector
of quantities over a fixed set of resource axes, with addition, subtraction, a
zero/default value, and equality" (spec §3/§4.1); its implementation is not
among the provided sources.  We model it as a list of integers.  Binary
operations align the operands by padding the shorter one with zeros (on
spec-conforming inputs both operands share the axis count, so padding never
fires), the canonical zero is the empty vector, and equality is extensional:
two vectors are equal when every axis (padding with zero) agrees. -/

/-- A multi-dimensional demand/capacity vector, one integer per resource axis. -/
abbrev MultiDimensionalCapacity : Type := List Int

/-- The canonical zero capacity (`MultiDimensionalCapacity::default()`). -/
def capDefault : MultiDimensionalCapacity := []

/-- Pads a capacity vector with zero entries up to length `n`. -/
def padTo (n : Nat) (c : MultiDimensionalCapacity) : List Int :=
  c ++ List.replicate (n - c.length) 0

/-- The quantity on axis `i` of a capacity vector (zero beyond its length). -/
def capGet (c : MultiDimensionalCapacity) (i : Nat) : Int :=
  c.getD i 0

/-- Pointwise addition of capacity vectors. -/
def capAdd (a b : MultiDimensionalCapacity) : MultiDimensionalCapacity :=
  (padTo (max (List.length a) (List.length b)) a).zipWith (· + ·)
    (padTo (max (List.length a) (List.length b)) b)

/-- Pointwise subtraction of capacity vectors. -/
def capSub (a b : MultiDimensionalCapacity) : MultiDimensionalCapacity :=
  (padTo (max (List.length a) (List.length b)) a).zipWith (· - ·)
    (padTo (max (List.length a) (List.length b)) b)

/-- Extensional equality test of capacity vectors: every axis agrees. -/
def capEqb (a b : MultiDimensionalCapacity) : Bool :=
  (List.range (max (List.length a) (List.length b))).all fun i =>
    capGet a i == capGet b i

/-! ## Validation data model

The raw job format from `vrp-pragmatic` (as far as `validation/jobs.rs` reads
it): a plan's job has an id and optional lists of pickup / delivery /
replacement / service tasks; each task has an optional demand vector and a
list of places; each place optionally carries raw time windows.  Raw time
windows (timestamp strings in the Rust format model) are modelled as pairs of
integer times. -/

/-- A raw time window, `[start, end]`. -/
abbrev RawTimeWindow : Type := Int × Int

/-- One place of a job task; only its optional time windows matter here. -/
structure JobPlace where
  times : Option (List RawTimeWindow)
deriving DecidableEq, Repr

/-- One task of a job: optional multi-dimensional demand and its places. -/
structure JobTask where
  places : List JobPlace
  demand : Option (List Int)
deriving DecidableEq, Repr

/-- A raw job definition as read by the validation rules. -/
structure Job where
  id : String
  pickups : Option (List JobTask)
  deliveries : Option (List JobTask)
  replacements : Option (List JobTask)
  services : Option (List JobTask)
deriving DecidableEq, Repr

/-- The validation context exposes the plan's jobs. -/
structure ValidationContext where
  jobs : List Job
deriving DecidableEq, Repr

/-- A validation outcome item: `ValidationError::new(code, message, action)`. -/
structure ValidationError where
  code : String
  message : String
  action : String
deriving DecidableEq, Repr

/-- `ids.join(", ")`. -/
def joinComma : List String → String
  | [] => ""
  | [s] => s
  | s :: rest => s ++ ", " ++ joinComma rest

/-- Modelled from the spec: `get_duplicates` (not among the provided sources)
returns the ids that occur more than once, or `none` when there are no
duplicates ("E1000 duplicate job id"). -/
def get_duplicates (ids : List String) : Option (List String) :=
  let dups := ids.dedup.filter fun id => 2 ≤ ids.count id
  if dups.isEmpty then none else some dups

/-- Checks that plan has no jobs with duplicate ids. -/
def check_e1000_no_jobs_with_duplicate_ids (ctx : ValidationContext) :
    Except ValidationError Unit :=
  match get_duplicates (ctx.jobs.map Job.id) with
  | none => Except.ok ()
  | some ids =>
    Except.error
      ⟨"E1000", "duplicated job ids: " ++ joinComma ids, "remove jobs with the same ids"⟩

/-- The tasks held by an optional task list (`Option::iter` then `flat_map`). -/
def optTasks (tasks : Option (List JobTask)) : List JobTask :=
  tasks.getD []

/-- The E1001 filter predicate: some pickup/delivery/replacement task carries
no demand, or some service task carries a demand. -/
def e1001_job_filter (job : Job) : Bool :=
  (optTasks job.pickups ++ optTasks job.deliveries ++ optTasks job.replacements).any
      (fun task => task.demand.isNone)
    || (optTasks job.services).any fun task => task.demand.isSome

/-- The ids collected by the E1001 check. -/
def e1001_invalid_ids (ctx : ValidationContext) : List String :=
  (ctx.jobs.filter e1001_job_filter).map Job.id

/-- Checks that jobs have proper demand. -/
def check_e1001_correct_job_types_demand (ctx : ValidationContext) :
    Except ValidationError Unit :=
  if (e1001_invalid_ids ctx).isEmpty then Except.ok ()
  else
    Except.error
      ⟨"E1001", "invalid job task demand in jobs: " ++ joinComma (e1001_invalid_ids ctx),
        "correct demand based on job task type"⟩

/-- `has_tasks`: the optional task list is present and non-empty. -/
def has_tasks (tasks : Option (List JobTask)) : Bool :=
  match tasks with
  | none => false
  | some l => decide (0 < l.length)

/-- `get_demand`: sums the demand of the tasks, a missing demand counting as
the default (zero) capacity; a missing task list sums to the default. -/
def get_demand (tasks : Option (List JobTask)) : MultiDimensionalCapacity :=
  match tasks with
  | none => capDefault
  | some l => l.foldl (fun acc task => capAdd acc ((task.demand).getD capDefault)) capDefault

/-- The E1002 filter predicate: the job has both pickups and deliveries and
the demand sums do not cancel. -/
def e1002_job_filter (job : Job) : Bool :=
  has_tasks job.pickups && has_tasks job.deliveries
    && !(capEqb (capSub (get_demand job.pickups) (get_demand job.deliveries)) capDefault)

/-- The ids collected by the E1002 check. -/
def e1002_invalid_ids (ctx : ValidationContext) : List String :=
  (ctx.jobs.filter e1002_job_filter).map Job.id

/-- Checks that sum of pickup/delivery demand should be equal. -/
def check_e1002_multiple_pickups_deliveries_demand (ctx : ValidationContext) :
    Except ValidationError Unit :=
  if (e1002_invalid_ids ctx).isEmpty then Except.ok ()
  else
    Except.error
      ⟨"E1002",
        "invalid pickup and delivery demand in jobs: " ++ joinComma (e1002_invalid_ids ctx),
        "correct demand so that sum of pickups equal to sum of deliveries"⟩

/-- Whether two raw time windows intersect. -/
def twIntersect (a b : RawTimeWindow) : Bool :=
  !(decide (a.2 < b.1) || decide (b.2 < a.1))

/-- Whether some two distinct windows of the list intersect. -/
def twListSelfIntersect : List RawTimeWindow → Bool
  | [] => false
  | w :: rest => rest.any (twIntersect w) || twListSelfIntersect rest

/-- Modelled from the spec: `check_raw_time_windows` (not among the provided
sources) checks that time windows are neither "malformed" (start after end)
nor — unless the flag skips the check — "self-intersecting" (spec §6, E1003). -/
def check_raw_time_windows (tws : List RawTimeWindow) (skipIntersections : Bool) : Bool :=
  tws.all (fun w => decide (w.1 ≤ w.2)) && (skipIntersections || !twListSelfIntersect tws)

/-- `has_invalid_tws` for one optional task list: some place of some task has
time windows failing `check_raw_time_windows`. -/
def has_invalid_tws (tasks : Option (List JobTask)) : Bool :=
  (optTasks tasks).any fun task =>
    task.places.any fun place =>
      match place.times with
      | none => false
      | some tws => !check_raw_time_windows tws false

/-- The E1003 filter predicate: invalid time windows among pickups or deliveries. -/
def e1003_job_filter (job : Job) : Bool :=
  has_invalid_tws job.pickups || has_invalid_tws job.deliveries

/-- The ids collected by the E1003 check. -/
def e1003_invalid_ids (ctx : ValidationContext) : List String :=
  (ctx.jobs.filter e1003_job_filter).map Job.id

/-- Checks that job's time windows are correct. -/
def check_e1003_time_window_correctness (ctx : ValidationContext) :
    Except ValidationError Unit :=
  if (e1003_invalid_ids ctx).isEmpty then Except.ok ()
  else
    Except.error
      ⟨"E1003", "invalid time windows in jobs: " ++ joinComma (e1003_invalid_ids ctx),
        "change job task place time windows so that they don't intersect"⟩

/-- The error of a failed check as a (zero- or one-element) list,
mirroring `.err().iter().cloned()`. -/
def errOpt : Except ValidationError Unit → List ValidationError
  | Except.ok _ => []
  | Except.error e => [e]

/-- The accumulated errors of all four job validation rules, in rule order. -/
def jobs_validation_errors (ctx : ValidationContext) : List ValidationError :=
  errOpt (check_e1000_no_jobs_with_duplicate_ids ctx)
    ++ errOpt (check_e1001_correct_job_types_demand ctx)
    ++ errOpt (check_e1002_multiple_pickups_deliveries_demand ctx)
    ++ errOpt (check_e1003_time_window_correctness ctx)

/-- Validates jobs from the plan. -/
def validate_jobs (ctx : ValidationContext) : Except (List ValidationError) Unit :=
  if (jobs_validation_errors ctx).isEmpty then Except.ok ()
  else Except.error (jobs_validation_errors ctx)

/-! ## Group constraint module

Modelled from the spec: the group module's implementation (`GroupModule`,
`GroupHardRouteConstraint`, `get_actor_groups`) is not among the provided
sources — only its unit tests are — so the model below follows spec §3, §4.4
and §9.  Actor identity is a canonical id assigned at fleet construction
(spec §9); the tag bag ("dimens") is a string-keyed map, from which the group
module reads the `"group"` key; the solution-level state bag maps an integer
state key to the module's group→actor mapping. -/

namespace Core

/-- An actor, identified canonically (spec §9: identity-based equality via a
canonical id assigned once at fleet construction). -/
structure Actor where
  id : Nat
deriving DecidableEq, Repr

/-- A job as seen by the group module: its extensible tag bag. -/
structure Job where
  dimens : List (String × String)
deriving DecidableEq, Repr

/-- The group tag carried by a job: the `"group"` key of its tag bag. -/
def jobGroup (j : Job) : Option String :=
  lookupKey "group" j.dimens

/-- An activity of a route, holding its assigned job. -/
structure Activity where
  job : Job
deriving DecidableEq, Repr

/-- A route context: the actor the route is built against and its ordered
activities. -/
structure RouteContext where
  actor : Actor
  activities : List Activity
deriving DecidableEq, Repr

/-- The group module's solution-level state value: a mapping from group tag
to the actor bound to that group. -/
abbrev GroupMap : Type := List (String × Actor)

/-- A solution context: all route contexts plus the solution-level state bag
(keyed by integer state keys). -/
structure SolutionContext where
  routes : List RouteContext
  state : List (Int × GroupMap)
deriving DecidableEq, Repr

/-- The group constraint module: its configured violation code and the state
key it owns. -/
structure GroupModule where
  code : Int
  state_key : Int
deriving DecidableEq, Repr

/-- A hard route constraint violation carrying a diagnostic code. -/
structure RouteConstraintViolation where
  code : Int
deriving DecidableEq, Repr

/-- `get_actor_groups`: the module's group→actor mapping held in the
solution-level state bag (empty when the key is unset). -/
def actorGroupsOf (m : GroupModule) (s : SolutionContext) : GroupMap :=
  (lookupKey m.state_key s.state).getD []

/-- Stores a value in a state bag, replacing any previous entry for the key. -/
def stateSet (k : Int) (v : GroupMap) (st : List (Int × GroupMap)) :
    List (Int × GroupMap) :=
  (k, v) :: removeKey k st

/-- `evaluate_job` (spec §4.4): no group tag → no violation; tag unbound or
bound to the route's actor → no violation; tag bound to a different actor →
violation with the module's configured code. -/
def evaluate_job (m : GroupModule) (s : SolutionContext) (r : RouteContext)
    (j : Job) : Option RouteConstraintViolation :=
  match jobGroup j with
  | none => none
  | some g =>
    match lookupKey g (actorGroupsOf m s) with
    | none => none
    | some a => if a = r.actor then none else some ⟨m.code⟩

/-- Binds a group tag to an actor in the mapping. -/
def bindGroup (g : String) (a : Actor) (gm : GroupMap) : GroupMap :=
  (g, a) :: removeKey g gm

/-- `accept_insertion` (spec §4.4): if the job carries a group tag, bind that
tag to the actor of the route at `route_index` in the mapping. -/
def accept_insertion (m : GroupModule) (s : SolutionContext) (route_index : Nat)
    (j : Job) : SolutionContext :=
  match jobGroup j with
  | none => s
  | some g =>
    match s.routes[route_index]? with
    | none => s
    | some r =>
      { s with state := stateSet m.state_key (bindGroup g r.actor (actorGroupsOf m s)) s.state }

/-- One step of the solution-state rescan: an activity whose job carries a
group tag binds the tag to the scanning route's actor unless the tag is
already in the fresh mapping (spec §4.4: first occurrence wins). -/
def rescanActivity (actor : Actor) (gm : GroupMap) (act : Activity) : GroupMap :=
  match jobGroup act.job with
  | none => gm
  | some g => if (lookupKey g gm).isSome then gm else (g, actor) :: gm

/-- Rescans one route's activities in route order. -/
def rescanRoute (gm : GroupMap) (r : RouteContext) : GroupMap :=
  r.activities.foldl (rescanActivity r.actor) gm

/-- Rebuilds the group mapping from scratch by rescanning every route in
route-list order (spec §4.4). -/
def rebuildGroups (routes : List RouteContext) : GroupMap :=
  routes.foldl rescanRoute []

/-- `accept_solution_state` (spec §4.4): discard the whole mapping and rebuild
it by rescanning every route. -/
def accept_solution_state (m : GroupModule) (s : SolutionContext) : SolutionContext :=
  { s with state := stateSet m.state_key (rebuildGroups s.routes) s.state }

/-- Whether some activity of the route carries the given group tag. -/
def routeCarries (g : String) (r : RouteContext) : Bool :=
  r.activities.any fun act => jobGroup act.job == some g

/-- The actor of the first route (in route-list order) carrying the given
group tag — the spec-level description of what the rebuilt mapping binds. -/
def firstRouteActor (routes : List RouteContext) (g : String) : Option Actor :=
  routes.findSome? fun r => if routeCarries g r then some r.actor else none

/-- First-biased choice on optional actors (the shape of "first occurrence
wins" statements). -/
def orO (a b : Option Actor) : Option Actor :=
  match a with
  | some x => some x
  | none => b

end Core

/-! ## Concrete fixtures (mirroring the unit tests' fleet of v1/v2 and the
module built with violation code 1 and state key 2) -/

def moduleG : Core.GroupModule := ⟨1, 2⟩

def actorV1 : Core.Actor := ⟨1⟩

def actorV2 : Core.Actor := ⟨2⟩

def jobWithGroup (g : String) : Core.Job := ⟨[("group", g)]⟩

def jobNoGroup : Core.Job := ⟨[]⟩

def actWith (g : Option String) : Core.Activity :=
  ⟨match g with
   | none => jobNoGroup
   | some g => jobWithGroup g⟩

def routeC3 : Core.RouteContext := ⟨actorV1, [actWith none]⟩

def sC1 : Core.SolutionContext :=
  ⟨[⟨actorV1, []⟩, ⟨actorV2, []⟩], [(2, [("g1", actorV2)])]⟩

def sC2 : Core.SolutionContext :=
  ⟨[⟨actorV1, [actWith (some "g1")]⟩, ⟨actorV1, [actWith (some "g2")]⟩], []⟩

def sC3 : Core.SolutionContext := ⟨[routeC3], []⟩

def sC5 : Core.SolutionContext := ⟨[routeC3], [(2, [("g2", actorV2)])]⟩

/-! ## Validation fixtures -/

def jobPlain (id : String) : Job := ⟨id, none, none, none, none⟩

def ctxDup : ValidationContext := ⟨[jobPlain "a", jobPlain "a"]⟩

def errDupE1000 : ValidationError :=
  ⟨"E1000", "duplicated job ids: a", "remove jobs with the same ids"⟩

def taskWithDemand (d : List Int) : JobTask := ⟨[], some d⟩

def taskNoDemand : JobTask := ⟨[], none⟩

def jobPickupOnly : Job := ⟨"job1", some [taskWithDemand [1]], none, none, none⟩

def ctxPickupOnly : ValidationContext := ⟨[jobPickupOnly]⟩

def jobMismatch : Job :=
  ⟨"job2", some [taskWithDemand [1]], some [taskWithDemand [2]], none, none⟩

def ctxMismatch : ValidationContext := ⟨[jobMismatch]⟩

def jobBadDemand : Job := ⟨"job3", some [taskNoDemand], none, none, none⟩

def ctxBadDemand : ValidationContext := ⟨[jobBadDemand]⟩

def badServiceTask : JobTask := ⟨[⟨some [(5, 1)]⟩], none⟩

def jobBadServiceTw : Job := ⟨"job4", none, none, none, some [badServiceTask]⟩

def ctxBadServiceTw : ValidationContext := ⟨[jobBadServiceTw]⟩

/-! ## Theorems -/

@[simp] theorem lookupKey_nil {κ α : Type} [DecidableEq κ] (k : κ) :
    lookupKey (α := α) k [] = none := rfl

@[simp] theorem lookupKey_cons {κ α : Type} [DecidableEq κ] (k : κ) (p : κ × α)
    (rest : List (κ × α)) :
    lookupKey k (p :: rest) = if p.1 = k then some p.2 else lookupKey k rest := rfl

theorem lookupKey_removeKey_ne {κ α : Type} [DecidableEq κ] (k k' : κ) (hne : k ≠ k')
    (l : List (κ × α)) : lookupKey k' (removeKey k l) = lookupKey k' l := by
  induction l with
  | nil => rfl
  | cons p rest ih =>
    by_cases hpk : p.1 = k
    · have hpk' : ¬ p.1 = k' := by rw [hpk]; exact hne
      simp [removeKey, hpk, lookupKey, hpk', hne, ih]
    · simp [removeKey, hpk, lookupKey, ih]

theorem removeKey_idem {κ α : Type} [DecidableEq κ] (k : κ) (l : List (κ × α)) :
    removeKey k (removeKey k l) = removeKey k l := by
  induction l with
  | nil => rfl
  | cons p rest ih =>
    by_cases hpk : p.1 = k
    · simp [removeKey, hpk, ih]
    · simp [removeKey, hpk, ih]

theorem length_padTo_of_le (n : Nat) (c : MultiDimensionalCapacity)
    (h : List.length c ≤ n) : (padTo n c).length = n := by
  simp [padTo]
  omega

theorem capGet_padTo (n : Nat) (c : MultiDimensionalCapacity) (i : Nat) :
    capGet (padTo n c) i = capGet c i := by
  unfold padTo capGet
  by_cases hi : i < List.length c
  · rw [List.getD_eq_getElem?_getD, List.getD_eq_getElem?_getD,
      List.getElem?_append_left hi]
  · rw [List.getD_eq_getElem?_getD, List.getD_eq_getElem?_getD,
      List.getElem?_append_right (Nat.le_of_not_lt hi)]
    rw [List.getElem?_eq_none (by simp [Nat.le_of_not_lt hi]) (l := c)]
    by_cases hrep : i - List.length c < n - List.length c
    · simp [List.getElem?_replicate, hrep]
    · rw [List.getElem?_eq_none (by simp [Nat.le_of_not_lt hrep])]

theorem capGet_zipWith (f : Int → Int → Int) (hf : f 0 0 = 0)
    (a b : MultiDimensionalCapacity) (hab : List.length a = List.length b) (i : Nat) :
    capGet (a.zipWith f b) i = f (capGet a i) (capGet b i) := by
  unfold capGet
  by_cases hi : i < List.length a
  · rw [List.getD_eq_getElem?_getD, List.getD_eq_getElem?_getD,
      List.getD_eq_getElem?_getD]
    rw [List.getElem?_zipWith]
    rw [List.getElem?_eq_getElem hi, List.getElem?_eq_getElem (hab ▸ hi)]
    simp
  · have hlen : (a.zipWith f b).length = List.length a := by
      simp [List.length_zipWith, hab]
    rw [List.getD_eq_getElem?_getD, List.getD_eq_getElem?_getD,
      List.getD_eq_getElem?_getD]
    rw [List.getElem?_eq_none (by simp [hlen, Nat.le_of_not_lt hi]),
      List.getElem?_eq_none (by simp [Nat.le_of_not_lt hi]),
      List.getElem?_eq_none (by simp [hab ▸ Nat.le_of_not_lt hi])]
    simpa using hf.symm

theorem capGet_capSub (a b : MultiDimensionalCapacity) (i : Nat) :
    capGet (capSub a b) i = capGet a i - capGet b i := by
  unfold capSub
  rw [capGet_zipWith (· - ·) (by simp) _ _
    (by rw [length_padTo_of_le _ _ (Nat.le_max_left _ _),
      length_padTo_of_le _ _ (Nat.le_max_right _ _)])]
  rw [capGet_padTo, capGet_padTo]

theorem capGet_eq_zero_of_ge (c : MultiDimensionalCapacity) (i : Nat)
    (h : List.length c ≤ i) : capGet c i = 0 := by
  unfold capGet
  rw [List.getD_eq_getElem?_getD, List.getElem?_eq_none h]
  rfl

theorem capEqb_iff (a b : MultiDimensionalCapacity) :
    capEqb a b = true ↔ ∀ i, capGet a i = capGet b i := by
  unfold capEqb
  rw [List.all_eq_true]
  constructor
  · intro h i
    by_cases hi : i < max (List.length a) (List.length b)
    · have := h i (List.mem_range.mpr hi)
      simpa using this
    · push_neg at hi
      rw [capGet_eq_zero_of_ge a i (le_trans (Nat.le_max_left _ _) hi),
        capGet_eq_zero_of_ge b i (le_trans (Nat.le_max_right _ _) hi)]
  · intro h i _
    simpa using h i

theorem capEqb_capSub_default (a b : MultiDimensionalCapacity) :
    capEqb (capSub a b) capDefault = capEqb a b := by
  have key : (∀ i, capGet (capSub a b) i = capGet capDefault i) ↔
      (∀ i, capGet a i = capGet b i) := by
    have hz : ∀ i, capGet capDefault i = 0 := by
      intro i
      simp [capGet, capDefault]
    constructor
    · intro h i
      have hthis := h i
      rw [capGet_capSub, hz i] at hthis
      omega
    · intro h i
      rw [capGet_capSub, h i, hz i]
      omega
  have h1 := capEqb_iff (capSub a b) capDefault
  have h2 := capEqb_iff a b
  by_cases h : capEqb a b = true
  · rw [h]
    exact h1.mpr (key.mpr (h2.mp h))
  · have hl : ¬ capEqb (capSub a b) capDefault = true := fun hc =>
      h (h2.mpr (key.mp (h1.mp hc)))
    simp only [Bool.not_eq_true] at h hl
    rw [h, hl]

namespace Core

@[simp] theorem orO_some (x : Actor) (b : Option Actor) : orO (some x) b = some x := rfl

@[simp] theorem orO_none (b : Option Actor) : orO none b = b := rfl

theorem lookupKey_rescanRoute (r : RouteContext) (gm : GroupMap) (g : String) :
    lookupKey g (rescanRoute gm r) =
      orO (lookupKey g gm) (if routeCarries g r then some r.actor else none) := by
  unfold rescanRoute routeCarries
  induction r.activities generalizing gm with
  | nil =>
    cases h : lookupKey g gm <;> simp [h]
  | cons act acts ih =>
    rw [List.foldl_cons, ih, List.any_cons]
    cases hact : jobGroup act.job with
    | none =>
      simp [rescanActivity, hact]
    | some g' =>
      by_cases hg : g' = g
      · subst hg
        cases hsome : lookupKey g' gm with
        | some a =>
          simp [rescanActivity, hact, hsome]
        | none =>
          simp [rescanActivity, hact, hsome, lookupKey]
      · have hbeq : (some g' == some g) = false := by simp [hg]
        rw [hbeq]
        cases hsome : lookupKey g' gm with
        | some a =>
          simp [rescanActivity, hact, hsome]
        | none =>
          simp [rescanActivity, hact, hsome, lookupKey, hg]

theorem lookupKey_foldl_rescanRoute (routes : List RouteContext) (gm : GroupMap)
    (g : String) :
    lookupKey g (routes.foldl rescanRoute gm) =
      orO (lookupKey g gm) (firstRouteActor routes g) := by
  induction routes generalizing gm with
  | nil =>
    cases h : lookupKey g gm <;> simp [firstRouteActor, h]
  | cons r routes ih =>
    rw [List.foldl_cons, ih, lookupKey_rescanRoute]
    unfold firstRouteActor
    rw [List.findSome?_cons]
    cases hlk : lookupKey g gm with
    | some a => simp
    | none =>
      by_cases hc : routeCarries g r
      · simp [hc]
      · simp [hc, firstRouteActor]

theorem lookupKey_rebuildGroups (routes : List RouteContext) (g : String) :
    lookupKey g (rebuildGroups routes) = firstRouteActor routes g := by
  unfold rebuildGroups
  rw [lookupKey_foldl_rescanRoute]
  simp

theorem lookupKey_eq_none_iff {κ α : Type} [DecidableEq κ] (k : κ) (l : List (κ × α)) :
    lookupKey k l = none ↔ k ∉ l.map Prod.fst := by
  induction l with
  | nil => simp
  | cons p rest ih =>
    rw [List.map_cons, List.mem_cons, lookupKey_cons]
    by_cases hpk : p.1 = k
    · simp [hpk]
    · rw [if_neg hpk, ih]
      constructor
      · intro h hor
        rcases hor with h1 | h2
        · exact hpk h1.symm
        · exact h h2
      · intro h hmem
        exact h (Or.inr hmem)

theorem nodup_keys_rescanRoute (r : RouteContext) (gm : GroupMap)
    (h : (gm.map Prod.fst).Nodup) : ((rescanRoute gm r).map Prod.fst).Nodup := by
  unfold rescanRoute
  induction r.activities generalizing gm with
  | nil => exact h
  | cons act acts ih =>
    rw [List.foldl_cons]
    apply ih
    unfold rescanActivity
    cases hact : jobGroup act.job with
    | none => exact h
    | some g =>
      cases hsome : lookupKey g gm with
      | some a => simp [hsome, h]
      | none =>
        simp only [hsome, Option.isSome_none, Bool.false_eq_true, if_false, List.map_cons]
        exact List.Nodup.cons ((lookupKey_eq_none_iff g gm).mp hsome) h

theorem nodup_keys_rebuildGroups (routes : List RouteContext) :
    ((rebuildGroups routes).map Prod.fst).Nodup := by
  unfold rebuildGroups
  have general : ∀ (rs : List RouteContext) (gm : GroupMap),
      (gm.map Prod.fst).Nodup → ((rs.foldl rescanRoute gm).map Prod.fst).Nodup := by
    intro rs
    induction rs with
    | nil => intro gm h; exact h
    | cons r rs ih =>
      intro gm h
      rw [List.foldl_cons]
      exact ih _ (nodup_keys_rescanRoute r gm h)
  exact general routes [] (by simp)

theorem firstRouteActor_eq_none (routes : List RouteContext) (g : String)
    (h : ∀ r ∈ routes, routeCarries g r = false) : firstRouteActor routes g = none := by
  induction routes with
  | nil => rfl
  | cons r routes ih =>
    unfold firstRouteActor
    rw [List.findSome?_cons]
    have hr := h r (List.mem_cons_self r routes)
    rw [hr]
    simpa [firstRouteActor] using ih fun r' hr' => h r' (List.mem_cons_of_mem r hr')

theorem firstRouteActor_mem (routes : List RouteContext) (g : String) (a : Actor)
    (h : firstRouteActor routes g = some a) :
    ∃ r ∈ routes, routeCarries g r = true ∧ r.actor = a := by
  induction routes with
  | nil => simp [firstRouteActor] at h
  | cons r routes ih =>
    unfold firstRouteActor at h
    rw [List.findSome?_cons] at h
    by_cases hc : routeCarries g r
    · rw [if_pos hc] at h
      have h' : some r.actor = some a := h
      exact ⟨r, List.mem_cons_self r routes, hc, Option.some.inj h'⟩
    · rw [if_neg hc] at h
      have h' : firstRouteActor routes g = some a := h
      obtain ⟨r', hr', hcar, hact⟩ := ih h'
      exact ⟨r', List.mem_cons_of_mem r hr', hcar, hact⟩

theorem firstRouteActor_isSome (routes : List RouteContext) (g : String)
    (r : RouteContext) (hmem : r ∈ routes) (hcar : routeCarries g r = true) :
    (firstRouteActor routes g).isSome := by
  induction routes with
  | nil => cases hmem
  | cons r0 routes ih =>
    unfold firstRouteActor
    rw [List.findSome?_cons]
    by_cases hc : routeCarries g r0
    · rw [if_pos hc]
      simp
    · rw [if_neg hc]
      rcases List.mem_cons.mp hmem with heq | hmem'
      · subst heq
        exact absurd hcar hc
      · simpa [firstRouteActor] using ih hmem'

end Core

theorem actorGroupsOf_accept_solution_state (m : Core.GroupModule)
    (s : Core.SolutionContext) :
    Core.actorGroupsOf m (Core.accept_solution_state m s) = Core.rebuildGroups s.routes := by
  simp [Core.actorGroupsOf, Core.accept_solution_state, Core.stateSet, lookupKey]

/-- Claim C1: for every solution context, route context and job, the group
module's evaluate_job returns no violation when the job carries no group tag;
when it does, no violation if the mapping has no entry for the tag or the
entry's actor equals the route's actor, and a violation carrying the module's
configured code if the entry's actor differs from the route's actor. -/
theorem group_evaluate_job_cases (m : Core.GroupModule) (s : Core.SolutionContext)
    (r : Core.RouteContext) (j : Core.Job) :
    (Core.jobGroup j = none → Core.evaluate_job m s r j = none)
    ∧ (∀ g, Core.jobGroup j = some g → lookupKey g (Core.actorGroupsOf m s) = none →
        Core.evaluate_job m s r j = none)
    ∧ (∀ g a, Core.jobGroup j = some g → lookupKey g (Core.actorGroupsOf m s) = some a →
        a = r.actor → Core.evaluate_job m s r j = none)
    ∧ (∀ g a, Core.jobGroup j = some g → lookupKey g (Core.actorGroupsOf m s) = some a →
        a ≠ r.actor → Core.evaluate_job m s r j = some ⟨m.code⟩) := by
  refine ⟨?_, ?_, ?_, ?_⟩
  · intro hg
    simp [Core.evaluate_job, hg]
  · intro g hg hlk
    simp [Core.evaluate_job, hg, hlk]
  · intro g a hg hlk ha
    simp [Core.evaluate_job, hg, hlk, ha]
  · intro g a hg hlk ha
    simp [Core.evaluate_job, hg, hlk, ha]

/-- Witness for C1: with groups mapping g1 to actor v2, evaluating a job
tagged g1 against a route with actor v1 yields the violation with code 1. -/
theorem group_evaluate_job_cases_witness :
    Core.evaluate_job moduleG sC1 ⟨actorV1, []⟩ (jobWithGroup "g1") =
      some ⟨moduleG.code⟩ :=
  (group_evaluate_job_cases moduleG sC1 ⟨actorV1, []⟩ (jobWithGroup "g1")).2.2.2
    "g1" actorV2 (by decide) (by decide) (by decide)

/-- Claim C2: after accept_solution_state, the solution-level group mapping
binds each tag to the actor of the first route (in route-list order) carrying
it, holds exactly one entry per carried tag, retains no binding for an absent
tag, and binds each tag carried only by routes of one shared actor to that
actor. -/
theorem group_accept_solution_state_rebuilds (m : Core.GroupModule)
    (s : Core.SolutionContext) :
    (∀ g, lookupKey g (Core.actorGroupsOf m (Core.accept_solution_state m s)) =
        Core.firstRouteActor s.routes g)
    ∧ ((Core.actorGroupsOf m (Core.accept_solution_state m s)).map Prod.fst).Nodup
    ∧ (∀ g, (∀ r ∈ s.routes, Core.routeCarries g r = false) →
        lookupKey g (Core.actorGroupsOf m (Core.accept_solution_state m s)) = none)
    ∧ (∀ g r, r ∈ s.routes → Core.routeCarries g r = true →
        (∀ r' ∈ s.routes, Core.routeCarries g r' = true → r'.actor = r.actor) →
        lookupKey g (Core.actorGroupsOf m (Core.accept_solution_state m s)) =
          some r.actor) := by
  rw [actorGroupsOf_accept_solution_state]
  refine ⟨?_, ?_, ?_, ?_⟩
  · intro g
    exact Core.lookupKey_rebuildGroups s.routes g
  · exact Core.nodup_keys_rebuildGroups s.routes
  · intro g habsent
    rw [Core.lookupKey_rebuildGroups]
    exact Core.firstRouteActor_eq_none s.routes g habsent
  · intro g r hmem hcar hshared
    rw [Core.lookupKey_rebuildGroups]
    have hsome := Core.firstRouteActor_isSome s.routes g r hmem hcar
    obtain ⟨a, ha⟩ := Option.isSome_iff_exists.mp hsome
    obtain ⟨r', hr', hcar', hact'⟩ := Core.firstRouteActor_mem s.routes g a ha
    rw [ha, ← hact', hshared r' hr' hcar']

/-- Witness for C2: two routes sharing actor v1 carrying g1 and g2; after the
rescan, g1 is bound to v1. -/
theorem group_accept_solution_state_rebuilds_witness :
    lookupKey "g1"
      (Core.actorGroupsOf moduleG (Core.accept_solution_state moduleG sC2)) =
      some actorV1 :=
  (group_accept_solution_state_rebuilds moduleG sC2).2.2.2 "g1"
    ⟨actorV1, [actWith (some "g1")]⟩ (by decide) (by decide) (by decide)

theorem actorGroupsOf_stateSet (m : Core.GroupModule) (s : Core.SolutionContext)
    (v : Core.GroupMap) (routes : List Core.RouteContext) :
    Core.actorGroupsOf m ⟨routes, Core.stateSet m.state_key v s.state⟩ = v := by
  simp [Core.actorGroupsOf, Core.stateSet, lookupKey]

/-- Claim C3: accept_insertion for a job carrying a group tag binds that tag
to the actor of the route at the given index; in particular, from the empty
mapping and one route with actor v1 carrying an untagged job, accepting a job
tagged g1 yields exactly the mapping binding g1 to v1. -/
theorem group_accept_insertion_binds (m : Core.GroupModule) (s : Core.SolutionContext)
    (idx : Nat) (j : Core.Job) (g : String) (r : Core.RouteContext)
    (hg : Core.jobGroup j = some g) (hr : s.routes[idx]? = some r) :
    lookupKey g (Core.actorGroupsOf m (Core.accept_insertion m s idx j)) = some r.actor
    ∧ Core.actorGroupsOf moduleG
        (Core.accept_insertion moduleG sC3 0 (jobWithGroup "g1")) =
        [("g1", actorV1)] := by
  constructor
  · unfold Core.accept_insertion
    rw [hg, hr]
    show lookupKey g (Core.actorGroupsOf m ⟨s.routes,
      Core.stateSet m.state_key
        (Core.bindGroup g r.actor (Core.actorGroupsOf m s)) s.state⟩) = some r.actor
    rw [actorGroupsOf_stateSet]
    simp [Core.bindGroup, lookupKey]
  · decide

/-- Witness for C3: the concrete insertion of a job tagged g1 on the route of
actor v1 binds g1 to v1. -/
theorem group_accept_insertion_binds_witness :
    lookupKey "g1"
      (Core.actorGroupsOf moduleG
        (Core.accept_insertion moduleG sC3 0 (jobWithGroup "g1"))) =
      some routeC3.actor :=
  (group_accept_insertion_binds moduleG sC3 0 (jobWithGroup "g1") "g1" routeC3
    (by decide) (by decide)).1

/-- Claim C4: accept_solution_state is idempotent — running it twice on a
solution context yields the same solution-level state-bag contents (indeed the
same solution context) as running it once. -/
theorem group_accept_solution_state_idempotent (m : Core.GroupModule)
    (s : Core.SolutionContext) :
    Core.accept_solution_state m (Core.accept_solution_state m s) =
      Core.accept_solution_state m s := by
  unfold Core.accept_solution_state Core.stateSet
  simp [removeKey, removeKey_idem]

/-- Claim C5: accept_insertion for a job of one group leaves the bindings of
every other group unchanged; in particular, with pre-existing mapping binding
g2 to v2, inserting a job tagged g1 on the route of actor v1 yields the
mapping binding g1 to v1 and g2 to v2. -/
theorem group_accept_insertion_frame (m : Core.GroupModule) (s : Core.SolutionContext)
    (idx : Nat) (j : Core.Job) (g g' : String) (hg : Core.jobGroup j = some g)
    (hne : g' ≠ g) :
    lookupKey g' (Core.actorGroupsOf m (Core.accept_insertion m s idx j)) =
      lookupKey g' (Core.actorGroupsOf m s)
    ∧ Core.actorGroupsOf moduleG
        (Core.accept_insertion moduleG sC5 0 (jobWithGroup "g1")) =
        [("g1", actorV1), ("g2", actorV2)] := by
  constructor
  · unfold Core.accept_insertion
    rw [hg]
    cases hr : s.routes[idx]? with
    | none => rfl
    | some r =>
      show lookupKey g' (Core.actorGroupsOf m ⟨s.routes,
        Core.stateSet m.state_key
          (Core.bindGroup g r.actor (Core.actorGroupsOf m s)) s.state⟩) =
        lookupKey g' (Core.actorGroupsOf m s)
      rw [actorGroupsOf_stateSet]
      unfold Core.bindGroup
      rw [lookupKey_cons]
      rw [if_neg (by simpa using Ne.symm hne)]
      exact lookupKey_removeKey_ne g g' (Ne.symm hne) _
  · decide

/-- Witness for C5: inserting a job tagged g1 leaves the binding of g2
unchanged. -/
theorem group_accept_insertion_frame_witness :
    lookupKey "g2"
      (Core.actorGroupsOf moduleG
        (Core.accept_insertion moduleG sC5 0 (jobWithGroup "g1"))) =
      lookupKey "g2" (Core.actorGroupsOf moduleG sC5) :=
  (group_accept_insertion_frame moduleG sC5 0 (jobWithGroup "g1") "g1" "g2"
    (by decide) (by decide)).1

/-! ## Validation rule facts -/

theorem errOpt_eq_nil_iff (r : Except ValidationError Unit) :
    errOpt r = [] ↔ r = Except.ok () := by
  cases r with
  | ok u => cases u; simp [errOpt]
  | error e => simp [errOpt]

theorem mem_errOpt (r : Except ValidationError Unit) (e : ValidationError)
    (h : e ∈ errOpt r) : r = Except.error e := by
  cases r with
  | ok u => simp [errOpt] at h
  | error e' =>
    simp [errOpt] at h
    rw [h]

theorem check_e1000_error_eq (ctx : ValidationContext) (e : ValidationError)
    (h : check_e1000_no_jobs_with_duplicate_ids ctx = Except.error e) :
    ∃ ids, get_duplicates (ctx.jobs.map Job.id) = some ids ∧
      e = ⟨"E1000", "duplicated job ids: " ++ joinComma ids,
        "remove jobs with the same ids"⟩ := by
  unfold check_e1000_no_jobs_with_duplicate_ids at h
  cases hd : get_duplicates (ctx.jobs.map Job.id) with
  | none => rw [hd] at h; cases h
  | some ids =>
    rw [hd] at h
    cases h
    exact ⟨ids, rfl, rfl⟩

theorem check_e1001_error_eq (ctx : ValidationContext) (e : ValidationError)
    (h : check_e1001_correct_job_types_demand ctx = Except.error e) :
    e = ⟨"E1001", "invalid job task demand in jobs: " ++ joinComma (e1001_invalid_ids ctx),
      "correct demand based on job task type"⟩ := by
  unfold check_e1001_correct_job_types_demand at h
  by_cases hc : (e1001_invalid_ids ctx).isEmpty
  · rw [if_pos hc] at h; cases h
  · rw [if_neg hc] at h; cases h; rfl

theorem check_e1002_error_eq (ctx : ValidationContext) (e : ValidationError)
    (h : check_e1002_multiple_pickups_deliveries_demand ctx = Except.error e) :
    e = ⟨"E1002",
      "invalid pickup and delivery demand in jobs: " ++ joinComma (e1002_invalid_ids ctx),
      "correct demand so that sum of pickups equal to sum of deliveries"⟩ := by
  unfold check_e1002_multiple_pickups_deliveries_demand at h
  by_cases hc : (e1002_invalid_ids ctx).isEmpty
  · rw [if_pos hc] at h; cases h
  · rw [if_neg hc] at h; cases h; rfl

theorem check_e1003_error_eq (ctx : ValidationContext) (e : ValidationError)
    (h : check_e1003_time_window_correctness ctx = Except.error e) :
    e = ⟨"E1003", "invalid time windows in jobs: " ++ joinComma (e1003_invalid_ids ctx),
      "change job task place time windows so that they don't intersect"⟩ := by
  unfold check_e1003_time_window_correctness at h
  by_cases hc : (e1003_invalid_ids ctx).isEmpty
  · rw [if_pos hc] at h; cases h
  · rw [if_neg hc] at h; cases h; rfl

theorem check_e1001_eq_error (ctx : ValidationContext)
    (h : e1001_invalid_ids ctx ≠ []) :
    check_e1001_correct_job_types_demand ctx = Except.error
      ⟨"E1001", "invalid job task demand in jobs: " ++ joinComma (e1001_invalid_ids ctx),
        "correct demand based on job task type"⟩ := by
  unfold check_e1001_correct_job_types_demand
  rw [if_neg (fun hc => h (List.isEmpty_iff.mp hc))]

theorem check_e1002_eq_error (ctx : ValidationContext)
    (h : e1002_invalid_ids ctx ≠ []) :
    check_e1002_multiple_pickups_deliveries_demand ctx = Except.error
      ⟨"E1002",
        "invalid pickup and delivery demand in jobs: " ++ joinComma (e1002_invalid_ids ctx),
        "correct demand so that sum of pickups equal to sum of deliveries"⟩ := by
  unfold check_e1002_multiple_pickups_deliveries_demand
  rw [if_neg (fun hc => h (List.isEmpty_iff.mp hc))]

theorem mem_jobs_validation_errors_cases (ctx : ValidationContext) (e : ValidationError)
    (h : e ∈ jobs_validation_errors ctx) :
    (check_e1000_no_jobs_with_duplicate_ids ctx = Except.error e ∧ e.code = "E1000")
    ∨ (check_e1001_correct_job_types_demand ctx = Except.error e ∧ e.code = "E1001")
    ∨ (check_e1002_multiple_pickups_deliveries_demand ctx = Except.error e ∧
        e.code = "E1002")
    ∨ (check_e1003_time_window_correctness ctx = Except.error e ∧ e.code = "E1003") := by
  unfold jobs_validation_errors at h
  rcases List.mem_append.mp h with h012 | h3
  · rcases List.mem_append.mp h012 with h01 | h2
    · rcases List.mem_append.mp h01 with h0 | h1
      · have he := mem_errOpt _ _ h0
        obtain ⟨ids, _, heq⟩ := check_e1000_error_eq ctx e he
        exact Or.inl ⟨he, by rw [heq]⟩
      · have he := mem_errOpt _ _ h1
        have heq := check_e1001_error_eq ctx e he
        exact Or.inr (Or.inl ⟨he, by rw [heq]⟩)
    · have he := mem_errOpt _ _ h2
      have heq := check_e1002_error_eq ctx e he
      exact Or.inr (Or.inr (Or.inl ⟨he, by rw [heq]⟩))
  · have he := mem_errOpt _ _ h3
    have heq := check_e1003_error_eq ctx e he
    exact Or.inr (Or.inr (Or.inr ⟨he, by rw [heq]⟩))

theorem jobs_validation_errors_eq_nil_iff (ctx : ValidationContext) :
    jobs_validation_errors ctx = [] ↔
      (check_e1000_no_jobs_with_duplicate_ids ctx = Except.ok ()
        ∧ check_e1001_correct_job_types_demand ctx = Except.ok ()
        ∧ check_e1002_multiple_pickups_deliveries_demand ctx = Except.ok ()
        ∧ check_e1003_time_window_correctness ctx = Except.ok ()) := by
  unfold jobs_validation_errors
  simp [List.append_eq_nil, errOpt_eq_nil_iff]

theorem validate_jobs_eq_error (ctx : ValidationContext)
    (h : jobs_validation_errors ctx ≠ []) :
    validate_jobs ctx = Except.error (jobs_validation_errors ctx) := by
  unfold validate_jobs
  rw [if_neg (fun hc => h (List.isEmpty_iff.mp hc))]

theorem validate_jobs_error_inv (ctx : ValidationContext) (errs : List ValidationError)
    (h : validate_jobs ctx = Except.error errs) :
    errs = jobs_validation_errors ctx ∧ errs ≠ [] := by
  unfold validate_jobs at h
  by_cases hc : (jobs_validation_errors ctx).isEmpty
  · rw [if_pos hc] at h; cases h
  · rw [if_neg hc] at h
    cases h
    exact ⟨rfl, fun hn => hc (List.isEmpty_iff.mpr hn)⟩

theorem mem_filter_map_id_iff (jobs : List Job) (p : Job → Bool) (job : Job)
    (hmem : job ∈ jobs) (hnd : (jobs.map Job.id).Nodup) :
    job.id ∈ (jobs.filter p).map Job.id ↔ p job = true := by
  constructor
  · intro h
    obtain ⟨j, hj, hid⟩ := List.mem_map.mp h
    have hj' := List.mem_filter.mp hj
    have hinj := List.inj_on_of_nodup_map hnd
    have : j = job := hinj hj'.1 hmem hid
    rw [← this]
    exact hj'.2
  · intro h
    exact List.mem_map_of_mem Job.id (List.mem_filter.mpr ⟨hmem, h⟩)

/-- Claim C6: validate_jobs runs all four checks independently, returns Ok
exactly when all four pass, and otherwise returns the list of every failing
check's error — it never stops at the first failure. -/
theorem validate_jobs_runs_all_checks (ctx : ValidationContext) :
    (validate_jobs ctx = Except.ok () ↔
      (check_e1000_no_jobs_with_duplicate_ids ctx = Except.ok ()
        ∧ check_e1001_correct_job_types_demand ctx = Except.ok ()
        ∧ check_e1002_multiple_pickups_deliveries_demand ctx = Except.ok ()
        ∧ check_e1003_time_window_correctness ctx = Except.ok ()))
    ∧ (validate_jobs ctx = Except.ok ()
        ∨ validate_jobs ctx = Except.error
            (errOpt (check_e1000_no_jobs_with_duplicate_ids ctx)
              ++ errOpt (check_e1001_correct_job_types_demand ctx)
              ++ errOpt (check_e1002_multiple_pickups_deliveries_demand ctx)
              ++ errOpt (check_e1003_time_window_correctness ctx))) := by
  have hnil := jobs_validation_errors_eq_nil_iff ctx
  unfold validate_jobs
  by_cases h : (jobs_validation_errors ctx).isEmpty
  · rw [if_pos h]
    exact ⟨⟨fun _ => hnil.mp (List.isEmpty_iff.mp h), fun _ => rfl⟩, Or.inl rfl⟩
  · rw [if_neg h]
    refine ⟨⟨fun hcontra => absurd hcontra (by simp), fun hall => ?_⟩, Or.inr rfl⟩
    exact absurd (hnil.mpr hall) fun hn => h (List.isEmpty_iff.mpr hn)

/-- Witness for C6: a plan with no jobs passes all four checks, so
validate_jobs succeeds. -/
theorem validate_jobs_runs_all_checks_witness :
    validate_jobs ⟨[]⟩ = Except.ok () :=
  (validate_jobs_runs_all_checks ⟨[]⟩).1.mpr ⟨rfl, rfl, rfl, rfl⟩

theorem errOpt_map_code_sublist (r : Except ValidationError Unit) (c : String)
    (h : ∀ e, r = Except.error e → e.code = c) :
    ((errOpt r).map ValidationError.code).Sublist [c] := by
  cases r with
  | ok u => simp [errOpt]
  | error e => simp [errOpt, h e rfl]

/-- Claim C9: each validation rule contributes at most one error, so
validate_jobs returns at most four errors, whose codes appear in the fixed
order E1000, E1001, E1002, E1003. -/
theorem validate_jobs_error_codes (ctx : ValidationContext)
    (errs : List ValidationError) (h : validate_jobs ctx = Except.error errs) :
    errs ≠ [] ∧ errs.length ≤ 4 ∧
      (errs.map ValidationError.code).Sublist ["E1000", "E1001", "E1002", "E1003"] := by
  obtain ⟨herrs, hne⟩ := validate_jobs_error_inv ctx errs h
  have hsub : (errs.map ValidationError.code).Sublist
      ["E1000", "E1001", "E1002", "E1003"] := by
    rw [herrs]
    show (((errOpt (check_e1000_no_jobs_with_duplicate_ids ctx)
        ++ errOpt (check_e1001_correct_job_types_demand ctx)
        ++ errOpt (check_e1002_multiple_pickups_deliveries_demand ctx)
        ++ errOpt (check_e1003_time_window_correctness ctx))).map
        ValidationError.code).Sublist _
    rw [List.map_append, List.map_append, List.map_append]
    have h0 := errOpt_map_code_sublist _ "E1000" fun e he => by
      obtain ⟨ids, _, heq⟩ := check_e1000_error_eq ctx e he
      rw [heq]
    have h1 := errOpt_map_code_sublist _ "E1001" fun e he => by
      rw [check_e1001_error_eq ctx e he]
    have h2 := errOpt_map_code_sublist _ "E1002" fun e he => by
      rw [check_e1002_error_eq ctx e he]
    have h3 := errOpt_map_code_sublist _ "E1003" fun e he => by
      rw [check_e1003_error_eq ctx e he]
    exact ((h0.append h1).append h2).append h3
  refine ⟨hne, ?_, hsub⟩
  have := hsub.length_le
  simpa using this

/-- Witness for C9: duplicated job ids produce exactly the single E1000
error, whose code list is a sublist of the fixed order. -/
theorem validate_jobs_error_codes_witness :
    ([errDupE1000] : List ValidationError) ≠ []
    ∧ ([errDupE1000] : List ValidationError).length ≤ 4
    ∧ (([errDupE1000] : List ValidationError).map ValidationError.code).Sublist
        ["E1000", "E1001", "E1002", "E1003"] :=
  validate_jobs_error_codes ctxDup [errDupE1000] rfl

/-- Counterexample to C7 as stated: the job of ctxPickupOnly has pickup
demand sum [1] and delivery demand sum zero — the sums differ — yet
validate_jobs reports no error at all (the E1002 rule skips jobs lacking
either pickups or deliveries), so no E1002 error names it. -/
theorem validate_jobs_e1002_counterexample :
    jobPickupOnly ∈ ctxPickupOnly.jobs
    ∧ capEqb (get_demand jobPickupOnly.pickups) (get_demand jobPickupOnly.deliveries)
        = false
    ∧ jobPickupOnly.id ∉ e1002_invalid_ids ctxPickupOnly
    ∧ validate_jobs ctxPickupOnly = Except.ok () :=
  ⟨by decide, by decide, by decide, rfl⟩

/-- Claim C7 (amended): validate_jobs reports an E1002 error naming a job
exactly when the job has at least one pickup task and at least one delivery
task and the sum of its pickup demands differs from the sum of its delivery
demands. -/
theorem validate_jobs_e1002_characterization (ctx : ValidationContext) (job : Job)
    (hmem : job ∈ ctx.jobs) (hnd : (ctx.jobs.map Job.id).Nodup) :
    (job.id ∈ e1002_invalid_ids ctx ↔
      (has_tasks job.pickups = true ∧ has_tasks job.deliveries = true
        ∧ capEqb (get_demand job.pickups) (get_demand job.deliveries) = false))
    ∧ (e1002_invalid_ids ctx ≠ [] → ∃ errs, validate_jobs ctx = Except.error errs ∧
        (⟨"E1002",
          "invalid pickup and delivery demand in jobs: "
            ++ joinComma (e1002_invalid_ids ctx),
          "correct demand so that sum of pickups equal to sum of deliveries"⟩ :
          ValidationError) ∈ errs)
    ∧ (e1002_invalid_ids ctx = [] → ∀ errs, validate_jobs ctx = Except.error errs →
        ∀ e ∈ errs, e.code ≠ "E1002") := by
  refine ⟨?_, ?_, ?_⟩
  · rw [show e1002_invalid_ids ctx = (ctx.jobs.filter e1002_job_filter).map Job.id
      from rfl]
    rw [mem_filter_map_id_iff ctx.jobs e1002_job_filter job hmem hnd]
    unfold e1002_job_filter
    rw [capEqb_capSub_default]
    simp [Bool.and_eq_true, Bool.not_eq_true']
    exact and_assoc
  · intro hne
    have hchk := check_e1002_eq_error ctx hne
    have hin : (⟨"E1002",
        "invalid pickup and delivery demand in jobs: "
          ++ joinComma (e1002_invalid_ids ctx),
        "correct demand so that sum of pickups equal to sum of deliveries"⟩ :
        ValidationError) ∈ jobs_validation_errors ctx := by
      unfold jobs_validation_errors
      refine List.mem_append.mpr (Or.inl (List.mem_append.mpr (Or.inr ?_)))
      rw [hchk]
      simp [errOpt]
    exact ⟨jobs_validation_errors ctx,
      validate_jobs_eq_error ctx (List.ne_nil_of_mem hin), hin⟩
  · intro hnil errs herrs e hemem hecode
    obtain ⟨heq, _⟩ := validate_jobs_error_inv ctx errs herrs
    rcases mem_jobs_validation_errors_cases ctx e (heq ▸ hemem) with
      ⟨hc, hcode⟩ | ⟨hc, hcode⟩ | ⟨hc, hcode⟩ | ⟨hc, hcode⟩
    · rw [hecode] at hcode
      exact absurd hcode (by decide)
    · rw [hecode] at hcode
      exact absurd hcode (by decide)
    · have hok : check_e1002_multiple_pickups_deliveries_demand ctx = Except.ok () := by
        unfold check_e1002_multiple_pickups_deliveries_demand
        rw [if_pos (List.isEmpty_iff.mpr hnil)]
      rw [hok] at hc
      simp at hc
    · rw [hecode] at hcode
      exact absurd hcode (by decide)

/-- Witness for C7 (amended): a job with pickup demand [1] and delivery
demand [2] is named by the E1002 rule. -/
theorem validate_jobs_e1002_characterization_witness :
    "job2" ∈ e1002_invalid_ids ctxMismatch :=
  ((validate_jobs_e1002_characterization ctxMismatch jobMismatch (by decide)
    (by decide)).1).mpr ⟨by decide, by decide, by decide⟩

/-- Claim C8: validate_jobs reports an E1001 error naming a job exactly when
some of the job's pickup, delivery or replacement tasks carries no demand, or
some of its service tasks carries a demand. -/
theorem validate_jobs_e1001_characterization (ctx : ValidationContext) (job : Job)
    (hmem : job ∈ ctx.jobs) (hnd : (ctx.jobs.map Job.id).Nodup) :
    (job.id ∈ e1001_invalid_ids ctx ↔
      ((∃ t ∈ optTasks job.pickups, t.demand = none)
        ∨ (∃ t ∈ optTasks job.deliveries, t.demand = none)
        ∨ (∃ t ∈ optTasks job.replacements, t.demand = none)
        ∨ ∃ t ∈ optTasks job.services, t.demand ≠ none))
    ∧ (e1001_invalid_ids ctx ≠ [] → ∃ errs, validate_jobs ctx = Except.error errs ∧
        (⟨"E1001",
          "invalid job task demand in jobs: " ++ joinComma (e1001_invalid_ids ctx),
          "correct demand based on job task type"⟩ : ValidationError) ∈ errs)
    ∧ (e1001_invalid_ids ctx = [] → ∀ errs, validate_jobs ctx = Except.error errs →
        ∀ e ∈ errs, e.code ≠ "E1001") := by
  refine ⟨?_, ?_, ?_⟩
  · rw [show e1001_invalid_ids ctx = (ctx.jobs.filter e1001_job_filter).map Job.id
      from rfl]
    rw [mem_filter_map_id_iff ctx.jobs e1001_job_filter job hmem hnd]
    unfold e1001_job_filter
    simp [Bool.or_eq_true, List.any_eq_true, Option.isNone_iff_eq_none,
      Option.isSome_iff_ne_none, List.mem_append]
    rw [or_assoc, or_assoc]
  · intro hne
    have hchk := check_e1001_eq_error ctx hne
    have hin : (⟨"E1001",
        "invalid job task demand in jobs: " ++ joinComma (e1001_invalid_ids ctx),
        "correct demand based on job task type"⟩ : ValidationError) ∈
        jobs_validation_errors ctx := by
      unfold jobs_validation_errors
      refine List.mem_append.mpr (Or.inl (List.mem_append.mpr (Or.inl
        (List.mem_append.mpr (Or.inr ?_)))))
      rw [hchk]
      simp [errOpt]
    exact ⟨jobs_validation_errors ctx,
      validate_jobs_eq_error ctx (List.ne_nil_of_mem hin), hin⟩
  · intro hnil errs herrs e hemem hecode
    obtain ⟨heq, _⟩ := validate_jobs_error_inv ctx errs herrs
    rcases mem_jobs_validation_errors_cases ctx e (heq ▸ hemem) with
      ⟨hc, hcode⟩ | ⟨hc, hcode⟩ | ⟨hc, hcode⟩ | ⟨hc, hcode⟩
    · rw [hecode] at hcode
      exact absurd hcode (by decide)
    · have hok : check_e1001_correct_job_types_demand ctx = Except.ok () := by
        unfold check_e1001_correct_job_types_demand
        rw [if_pos (List.isEmpty_iff.mpr hnil)]
      rw [hok] at hc
      simp at hc
    · rw [hecode] at hcode
      exact absurd hcode (by decide)
    · rw [hecode] at hcode
      exact absurd hcode (by decide)

/-- Witness for C8: a job whose only pickup task carries no demand is named
by the E1001 rule. -/
theorem validate_jobs_e1001_characterization_witness :
    "job3" ∈ e1001_invalid_ids ctxBadDemand :=
  ((validate_jobs_e1001_characterization ctxBadDemand jobBadDemand (by decide)
    (by decide)).1).mpr (Or.inl ⟨taskNoDemand, by decide, rfl⟩)

/-- Claim C10: the E1003 rule inspects only pickup and delivery task places —
a job whose time windows are valid on pickups and deliveries is never named
with code E1003, whatever its service or replacement time windows are. -/
theorem e1003_checks_only_pickups_deliveries (ctx : ValidationContext) (job : Job)
    (hmem : job ∈ ctx.jobs) (hnd : (ctx.jobs.map Job.id).Nodup)
    (hp : has_invalid_tws job.pickups = false)
    (hd : has_invalid_tws job.deliveries = false) :
    job.id ∉ e1003_invalid_ids ctx
    ∧ ∀ errs, validate_jobs ctx = Except.error errs → ∀ e ∈ errs,
        e.code = "E1003" →
        e.message = "invalid time windows in jobs: " ++ joinComma (e1003_invalid_ids ctx) := by
  constructor
  · intro hin
    have hfil := (mem_filter_map_id_iff ctx.jobs e1003_job_filter job hmem hnd).mp hin
    unfold e1003_job_filter at hfil
    rw [hp, hd] at hfil
    simp at hfil
  · intro errs herrs e hemem hecode
    obtain ⟨heq, _⟩ := validate_jobs_error_inv ctx errs herrs
    rcases mem_jobs_validation_errors_cases ctx e (heq ▸ hemem) with
      ⟨hc, hcode⟩ | ⟨hc, hcode⟩ | ⟨hc, hcode⟩ | ⟨hc, hcode⟩
    · rw [hecode] at hcode
      exact absurd hcode (by decide)
    · rw [hecode] at hcode
      exact absurd hcode (by decide)
    · rw [hecode] at hcode
      exact absurd hcode (by decide)
    · rw [check_e1003_error_eq ctx e hc]

/-- Witness for C10: a job whose only malformed time window sits on a service
task is not named by the E1003 rule. -/
theorem e1003_checks_only_pickups_deliveries_witness :
    jobBadServiceTw.id ∉ e1003_invalid_ids ctxBadServiceTw :=
  (e1003_checks_only_pickups_deliveries ctxBadServiceTw jobBadServiceTw
    (by decide) (by decide) (by decide) (by decide)).1
